import Mathlib

/-! SHIM register block of the Haswell audio DSP (`hw/adsp/dsp/hsw-shim.c`)

A shallow embedding of the bus handlers `shim_read` / `shim_write` and of the
host message handlers `do_shim32`, `do_shim64`, `adsp_bdw_shim_msg` and
`adsp_bdw_irq_msg`, followed by theorems about them.

Conventions of the embedding.

* The register file `info->region` is a map from word index to word.  Every
  store truncates to 32 bits, as an assignment to a `uint32_t` cell does.
* The register offsets, bit masks and message tags come from headers
  (`hw/adsp/shim.h`, `qemu/io-bridge.h`) that are not part of the sources at
  hand.  They are the fields of `ShimConsts`; the handlers take them as a
  parameter and theorems state the few facts about them they rely on.
* Calls into collaborators (`qemu_io_send_msg`, `adsp_set_lvl1_irq`,
  `cpu_reset`, `cpu_resume`, `vm_start`, the iothread mutex) are recorded, in
  program order, in the list of `Event`s each handler returns.
* The diagnostic calls (`log_read`, `log_write`, `log_text`, `printf`,
  `fprintf`) write to a sink the device never reads back; they are left out.
-/

namespace HswShim

/-- Constants of the missing headers, each taken as the natural number the C
expression denotes where the handlers use it. -/
structure ShimConsts where
  SHIM_CSR : Nat
  SHIM_ISRX : Nat
  SHIM_ISRD : Nat
  SHIM_IMRD : Nat
  SHIM_IPCX : Nat
  SHIM_IPCD : Nat
  SHIM_ISRX_BUSY : Nat
  SHIM_ISRX_DONE : Nat
  SHIM_IPCD_BUSY : Nat
  SHIM_IPCD_DONE : Nat
  SHIM_IPCX_BUSY : Nat
  SHIM_IPCX_DONE : Nat
  SHIM_CSR_HSW_RST : Nat
  SHIM_CSR_HSW_STALL : Nat
  SHIM_CSR_RST : Nat
  SHIM_CSR_STALL : Nat
  QEMU_IO_TYPE_REG : Nat
  QEMU_IO_TYPE_IRQ : Nat
  QEMU_IO_MSG_REG32W : Nat
  QEMU_IO_MSG_REG32R : Nat
  QEMU_IO_MSG_REG64W : Nat
  QEMU_IO_MSG_REG64R : Nat
  QEMU_IO_MSG_IRQ : Nat
  sizeof_irq : Nat
  sizeof_reg32 : Nat

/-- Header `struct qemu_io_msg` of an outbound message: the three fields the
handlers fill in. -/
structure qemu_io_msg_hdr where
  type : Nat
  msg : Nat
  size : Nat
deriving DecidableEq, Repr

/-- Outbound `struct qemu_io_msg_irq`. -/
structure qemu_io_msg_irq where
  hdr : qemu_io_msg_hdr
  irq : Nat
deriving DecidableEq, Repr

/-- Outbound `struct qemu_io_msg_reg32`; `reg` and `val` are 32-bit fields. -/
structure qemu_io_msg_reg32 where
  hdr : qemu_io_msg_hdr
  reg : Nat
  val : Nat
deriving DecidableEq, Repr

/-- An inbound message as a host handler sees it behind its
`struct qemu_io_msg *`: the header fields and the `reg` / `val` payload that
the handler reads through its cast. -/
structure qemu_io_msg where
  type : Nat
  msg : Nat
  size : Nat
  reg : Nat
  val : Nat
deriving DecidableEq, Repr

/-- Calls into the collaborators of the device, in program order. -/
inductive Event where
  | send_irq (m : qemu_io_msg_irq)
  | send_reg32 (m : qemu_io_msg_reg32)
  | set_lvl1_irq (irq : Nat) (level : Nat)
  | cpu_reset
  | cpu_resume
  | vm_start
  | vm_stop
  | mutex_lock_iothread
  | mutex_unlock_iothread
deriving DecidableEq, Repr

/-- The part of `struct adsp_dev` the handlers touch: the SHIM register file
(`adsp->shim->region`), the reset flag, the interrupt number of the
descriptor (`adsp->desc->ia_irq`), and the level of each level-1 interrupt
line of the core. -/
structure adsp_dev where
  region : Nat → Nat
  in_reset : Bool
  ia_irq : Nat
  lvl1 : Nat → Nat

/-- Assignment `region[i] = v` to a `uint32_t` cell. -/
def region_set (region : Nat → Nat) (i v : Nat) : Nat → Nat :=
  fun j => if j = i then v % 2 ^ 32 else region j

/-- The C expression `x & ~m` evaluated in `uint32_t`. -/
def andNot32 (x m : Nat) : Nat :=
  x &&& (0xFFFFFFFF ^^^ (m % 2 ^ 32))

/-- Modelled from the spec: `adsp_set_lvl1_irq` is declared outside the sources
at hand; the interrupt line is modelled as the last level driven on it, and
the call is recorded. -/
def adsp_set_lvl1_irq (s : adsp_dev) (irq level : Nat) : adsp_dev × List Event :=
  ({ s with lvl1 := fun j => if j = irq then level else s.lvl1 j },
   [Event.set_lvl1_irq irq level])

/-- Bus read handler `shim_read`. -/
def shim_read (s : adsp_dev) (addr : Nat) (_size : Nat) : Nat :=
  s.region (addr >>> 2)

/-- Status mirroring shared by the `SHIM_IPCD` and `SHIM_IPCX` cases: clear
the busy and done bits of the ISRX word, then or in the ones selected by
the written value. -/
def mirror_isrx (k : ShimConsts) (old val busy done : Nat) : Nat :=
  let isrx := andNot32 old (k.SHIM_ISRX_DONE ||| k.SHIM_ISRX_BUSY)
  let isrx := (isrx ||| (if val &&& busy ≠ 0 then k.SHIM_ISRX_BUSY else 0)) % 2 ^ 32
  let isrx := (isrx ||| (if val &&& done ≠ 0 then k.SHIM_ISRX_DONE else 0)) % 2 ^ 32
  isrx

/-- The interrupt message both IPC cases send to the parent. -/
def irq_msg (k : ShimConsts) : qemu_io_msg_irq :=
  { hdr := { type := k.QEMU_IO_TYPE_IRQ, msg := k.QEMU_IO_MSG_IRQ, size := k.sizeof_irq },
    irq := 0 }

/-- Bus write handler `shim_write`.  The `switch (addr)` is read as a chain of
tests in the order of its labels (C requires the labels to be distinct). -/
def shim_write (k : ShimConsts) (s : adsp_dev) (addr val : Nat) (_size : Nat) :
    adsp_dev × List Event :=
  if addr = k.SHIM_IPCD then
    let region := region_set s.region (addr >>> 2) val
    let isrx := mirror_isrx k (region (k.SHIM_ISRX >>> 2)) val k.SHIM_IPCD_BUSY k.SHIM_IPCD_DONE
    let region := region_set region (k.SHIM_ISRX >>> 2) isrx
    ({ s with region := region },
     if val &&& k.SHIM_IPCD_BUSY ≠ 0 then [Event.send_irq (irq_msg k)] else [])
  else if addr = k.SHIM_IPCX then
    let region := region_set s.region (addr >>> 2) val
    let isrx := mirror_isrx k (region (k.SHIM_ISRX >>> 2)) val k.SHIM_IPCX_BUSY k.SHIM_IPCX_DONE
    let region := region_set region (k.SHIM_ISRX >>> 2) isrx
    ({ s with region := region },
     if val &&& k.SHIM_IPCX_DONE ≠ 0 then [Event.send_irq (irq_msg k)] else [])
  else if addr = k.SHIM_IMRD then
    let region := region_set s.region (addr >>> 2) val
    let s1 : adsp_dev := { s with region := region }
    let active := andNot32 (region (k.SHIM_ISRD >>> 2)) (region (k.SHIM_IMRD >>> 2))
    if active = 0 then adsp_set_lvl1_irq s1 s1.ia_irq 0 else (s1, [])
  else if addr = k.SHIM_CSR then
    let region := region_set s.region (addr >>> 2) val
    ({ s with region := region },
     [Event.send_reg32
        { hdr := { type := k.QEMU_IO_TYPE_REG, msg := k.QEMU_IO_MSG_REG32W,
                   size := k.sizeof_reg32 },
          reg := addr % 2 ^ 32, val := val % 2 ^ 32 }])
  else
    (s, [])

/-- Host handler `do_shim32` (32-bit register write from the host). -/
def do_shim32 (k : ShimConsts) (s : adsp_dev) (m : qemu_io_msg) : adsp_dev × List Event :=
  if m.reg = k.SHIM_CSR then
    if !s.in_reset && decide (m.val &&& k.SHIM_CSR_HSW_RST ≠ 0) then
      ({ s with in_reset := true }, [Event.cpu_reset])
    else if s.in_reset && !decide (m.val &&& k.SHIM_CSR_HSW_STALL ≠ 0) then
      ({ s with in_reset := false }, [Event.cpu_resume, Event.vm_start])
    else
      (s, [])
  else
    (s, [])

/-- Host handler `do_shim64` (64-bit register write from the host). -/
def do_shim64 (k : ShimConsts) (s : adsp_dev) (m : qemu_io_msg) : adsp_dev × List Event :=
  if m.reg = k.SHIM_CSR then
    if !s.in_reset && decide (m.val &&& k.SHIM_CSR_RST ≠ 0) then
      ({ s with in_reset := true }, [Event.cpu_reset])
    else if s.in_reset && !decide (m.val &&& k.SHIM_CSR_STALL ≠ 0) then
      ({ s with in_reset := false }, [Event.cpu_resume, Event.vm_start])
    else
      (s, [])
  else
    (s, [])

/-- Host entry point `adsp_bdw_shim_msg`: dispatch on the message tag. -/
def adsp_bdw_shim_msg (k : ShimConsts) (s : adsp_dev) (m : qemu_io_msg) :
    adsp_dev × List Event :=
  if m.msg = k.QEMU_IO_MSG_REG32W then do_shim32 k s m
  else if m.msg = k.QEMU_IO_MSG_REG32R then (s, [])
  else if m.msg = k.QEMU_IO_MSG_REG64W then do_shim64 k s m
  else if m.msg = k.QEMU_IO_MSG_REG64R then (s, [])
  else (s, [])

/-- Host entry point `adsp_bdw_irq_msg`: interrupt reevaluation. -/
def adsp_bdw_irq_msg (k : ShimConsts) (s : adsp_dev) (_m : qemu_io_msg) :
    adsp_dev × List Event :=
  let active := andNot32 (s.region (k.SHIM_ISRD >>> 2)) (s.region (k.SHIM_IMRD >>> 2))
  if active ≠ 0 then
    let r := adsp_set_lvl1_irq s s.ia_irq 1
    (r.1, [Event.mutex_lock_iothread] ++ r.2 ++ [Event.mutex_unlock_iothread])
  else
    (s, [])

/-- Run a handler on the state left by an earlier one, appending the events. -/
def andThen (r : adsp_dev × List Event) (f : adsp_dev → adsp_dev × List Event) :
    adsp_dev × List Event :=
  ((f r.1).1, r.2 ++ (f r.1).2)

/-- A sample table of constants, used to evaluate the handlers on concrete
inputs. -/
def sampleConsts : ShimConsts where
  SHIM_CSR := 0x00
  SHIM_ISRX := 0x18
  SHIM_ISRD := 0x20
  SHIM_IMRD := 0x30
  SHIM_IPCX := 0x38
  SHIM_IPCD := 0x40
  SHIM_ISRX_BUSY := 0x2
  SHIM_ISRX_DONE := 0x1
  SHIM_IPCD_BUSY := 0x80000000
  SHIM_IPCD_DONE := 0x40000000
  SHIM_IPCX_BUSY := 0x80000000
  SHIM_IPCX_DONE := 0x40000000
  SHIM_CSR_HSW_RST := 0x2
  SHIM_CSR_HSW_STALL := 0x400
  SHIM_CSR_RST := 0x2
  SHIM_CSR_STALL := 0x1
  QEMU_IO_TYPE_REG := 1
  QEMU_IO_TYPE_IRQ := 2
  QEMU_IO_MSG_REG32W := 32
  QEMU_IO_MSG_REG32R := 33
  QEMU_IO_MSG_REG64W := 34
  QEMU_IO_MSG_REG64R := 35
  QEMU_IO_MSG_IRQ := 36
  sizeof_irq := 20
  sizeof_reg32 := 24

/-- The device right after reset: every word zero, core running, line low. -/
def dev0 : adsp_dev where
  region := fun _ => 0
  in_reset := false
  ia_irq := 4
  lvl1 := fun _ => 0

/-- A device whose ISRD word has bit 0 pending and unmasked. -/
def dev_pending : adsp_dev where
  region := fun j => if j = 8 then 1 else 0
  in_reset := false
  ia_irq := 4
  lvl1 := fun _ => 0

/-- A device whose ISRD word has bit 0 pending and whose IMRD word masks that
bit. -/
def dev_masked : adsp_dev where
  region := fun j => if j = 8 then 1 else if j = 12 then 1 else 0
  in_reset := false
  ia_irq := 4
  lvl1 := fun _ => 0

/-- Reset handler `shim_reset`: `memset(info->region, 0, space->desc.size)`
with `size` the byte size of the descriptor.  A word that lies wholly inside
the first `size` bytes becomes zero.  When `size` is not a multiple of 4 the
last word is covered only in part and loses the covered bytes, its low-order
ones on a little-endian host. -/
def shim_reset (size : Nat) (s : adsp_dev) : adsp_dev :=
  { s with region := fun i =>
      if 4 * i + 4 ≤ size then 0
      else if 4 * i < size then
        (s.region i >>> (8 * (size - 4 * i))) <<< (8 * (size - 4 * i))
      else s.region i }

/-- Device attach `adsp_bdw_shim_init`: reset the register file (the pointer
assignment `adsp->shim = info` is the identification of `region` with the SHIM
register file that `adsp_dev` already makes). -/
def adsp_bdw_shim_init (size : Nat) (s : adsp_dev) : adsp_dev :=
  shim_reset size s

/-- The handler `shim_read` in state-passing form: the state it leaves, the
calls it makes and the value it returns.  The body of `shim_read` assigns
nothing and calls no collaborator. -/
def shim_read_st (s : adsp_dev) (addr size : Nat) : (adsp_dev × List Event) × Nat :=
  ((s, []), shim_read s addr size)

/-- A finite sequence of bus reads `(addr, size)`, each run on the state the
previous one left: the final state, all calls made, and the values returned. -/
def run_reads : adsp_dev → List (Nat × Nat) → (adsp_dev × List Event) × List Nat
  | s, [] => ((s, []), [])
  | s, p :: rest =>
    let r := shim_read_st s p.1 p.2
    let rr := run_reads r.1.1 rest
    ((rr.1.1, r.1.2 ++ rr.1.2), r.2 :: rr.2)

/-- The reset/stall state machine in the words of the specification, over the
reset bit and the stall bit of the incoming control/status value: running and
reset requested gives a core reset and `in_reset = true`; in reset and stall
clear gives core resume, execution start and `in_reset = false`; every other
combination is a no-op. -/
def reset_stall_machine (in_reset rst stall : Bool) : Bool × List Event :=
  match in_reset, rst, stall with
  | false, true, _ => (true, [Event.cpu_reset])
  | true, _, false => (false, [Event.cpu_resume, Event.vm_start])
  | false, false, _ => (false, [])
  | true, _, true => (true, [])

/-- Lock discipline of a trace, walked with the state of the iothread mutex:
`held` tells whether the lock is held at the start.  The result is `none` when
a `set_lvl1_irq` call is made while the lock is not held (or the lock, which
is not recursive, is taken twice or released while free), and otherwise
`some h` with `h` telling whether the lock is held at the end.  A trace in
which every set-level call lies between an acquire and the matching release
gives `some false` from `held = false`. -/
def lock_trace : Bool → List Event → Option Bool
  | held, [] => some held
  | held, Event.mutex_lock_iothread :: es => if held then none else lock_trace true es
  | held, Event.mutex_unlock_iothread :: es => if held then lock_trace false es else none
  | held, Event.set_lvl1_irq _ _ :: es => if held then lock_trace held es else none
  | held, _ :: es => lock_trace held es

/-- A device with every word of the register file set to all ones, in reset,
line high. -/
def dev_dirty : adsp_dev where
  region := fun _ => 0xFFFFFFFF
  in_reset := true
  ia_irq := 4
  lvl1 := fun _ => 1

/-! ## Bit-level lemmas -/

theorem testBit_lt32 {b i : Nat} (hb : b < 2 ^ 32) (h : b.testBit i = true) : i < 32 := by
  by_contra hge
  have h32 : 2 ^ 32 ≤ 2 ^ i := Nat.pow_le_pow_right (by decide) (Nat.le_of_not_lt hge)
  have hf := Nat.testBit_lt_two_pow (Nat.lt_of_lt_of_le hb h32)
  simp [hf] at h

theorem testBit_disj {b d : Nat} (h : b &&& d = 0) (i : Nat) (hb : b.testBit i = true) :
    d.testBit i = false := by
  have hz := congrArg (fun n => Nat.testBit n i) h
  simp [Nat.testBit_land, hb] at hz
  exact hz

theorem testBit_andNot32 (x m i : Nat) :
    (andNot32 x m).testBit i = (x.testBit i && (decide (i < 32) && !m.testBit i)) := by
  unfold andNot32
  have h : (0xFFFFFFFF : Nat) = 2 ^ 32 - 1 := by norm_num
  rw [Nat.testBit_land, Nat.testBit_xor, h, Nat.testBit_two_pow_sub_one, Nat.testBit_mod_two_pow]
  by_cases hi : i < 32 <;> simp [hi]

/-- The word `x & ~m` is zero exactly when every bit of `x` below 32 is also
set in `m`. -/
theorem andNot32_eq_zero_iff (x m : Nat) :
    andNot32 x m = 0 ↔ ∀ i, i < 32 → x.testBit i = true → m.testBit i = true := by
  constructor
  · intro h i hi hx
    have hb : (andNot32 x m).testBit i = false := by rw [h]; exact Nat.zero_testBit i
    rw [testBit_andNot32] at hb
    simpa [hx, hi] using hb
  · intro h
    apply Nat.eq_of_testBit_eq
    intro i
    rw [testBit_andNot32, Nat.zero_testBit]
    by_cases hi : i < 32
    · by_cases hx : x.testBit i = true
      · simp [h i hi hx]
      · simp [hx]
    · simp [hi]

/-- The word `x & ~m` is nonzero exactly when some bit below 32 is set in `x`
and clear in `m`. -/
theorem andNot32_ne_zero_iff (x m : Nat) :
    andNot32 x m ≠ 0 ↔ ∃ i, i < 32 ∧ x.testBit i = true ∧ m.testBit i = false := by
  rw [Ne, andNot32_eq_zero_iff]
  push_neg
  constructor
  · rintro ⟨i, hi, hx, hm⟩
    exact ⟨i, hi, hx, by simpa using hm⟩
  · rintro ⟨i, hi, hx, hm⟩
    exact ⟨i, hi, hx, by simp [hm]⟩

/-- After mirroring, the ISRX busy bits are exactly the ones or-ed in. -/
theorem mirror_isrx_land_busy (k : ShimConsts) (old val busy done : Nat)
    (hB : k.SHIM_ISRX_BUSY < 2 ^ 32) (hdisj : k.SHIM_ISRX_BUSY &&& k.SHIM_ISRX_DONE = 0) :
    mirror_isrx k old val busy done &&& k.SHIM_ISRX_BUSY
      = if val &&& busy ≠ 0 then k.SHIM_ISRX_BUSY else 0 := by
  apply Nat.eq_of_testBit_eq
  intro i
  simp only [mirror_isrx, Nat.testBit_land, Nat.testBit_lor, Nat.testBit_mod_two_pow,
    testBit_andNot32]
  by_cases hbi : k.SHIM_ISRX_BUSY.testBit i = true
  · have hi := testBit_lt32 hB hbi
    have hdi := testBit_disj hdisj i hbi
    split_ifs <;> simp [hbi, hi, hdi]
  · split_ifs <;> simp [hbi]

/-- After mirroring, the ISRX done bits are exactly the ones or-ed in. -/
theorem mirror_isrx_land_done (k : ShimConsts) (old val busy done : Nat)
    (hD : k.SHIM_ISRX_DONE < 2 ^ 32) (hdisj : k.SHIM_ISRX_BUSY &&& k.SHIM_ISRX_DONE = 0) :
    mirror_isrx k old val busy done &&& k.SHIM_ISRX_DONE
      = if val &&& done ≠ 0 then k.SHIM_ISRX_DONE else 0 := by
  have hdisj2 : k.SHIM_ISRX_DONE &&& k.SHIM_ISRX_BUSY = 0 := by
    rw [Nat.land_comm]; exact hdisj
  apply Nat.eq_of_testBit_eq
  intro i
  simp only [mirror_isrx, Nat.testBit_land, Nat.testBit_lor, Nat.testBit_mod_two_pow,
    testBit_andNot32]
  by_cases hdi : k.SHIM_ISRX_DONE.testBit i = true
  · have hi := testBit_lt32 hD hdi
    have hbi := testBit_disj hdisj2 i hdi
    split_ifs <;> simp [hbi, hi, hdi]
  · split_ifs <;> simp [hdi]

theorem mirror_isrx_lt (k : ShimConsts) (old val busy done : Nat) :
    mirror_isrx k old val busy done < 2 ^ 32 := by
  unfold mirror_isrx
  exact Nat.mod_lt _ (by decide)

theorem region_set_same (r : Nat → Nat) (i v : Nat) : region_set r i v i = v % 2 ^ 32 := by
  simp [region_set]

theorem region_set_other (r : Nat → Nat) (i v j : Nat) (h : j ≠ i) :
    region_set r i v j = r j := by
  simp [region_set, h]

/-! ## The bus path -/

/-- C1 (refuted as stated): with every word zero, a write of 1 to offset 4,
which is none of the four offsets `shim_write` recognises, stores nothing:
the word read back at offset 4 is still 0, not 1. -/
theorem shim_write_unrecognized_not_stored :
    (4 ≠ sampleConsts.SHIM_IPCD ∧ 4 ≠ sampleConsts.SHIM_IPCX ∧
      4 ≠ sampleConsts.SHIM_IMRD ∧ 4 ≠ sampleConsts.SHIM_CSR) ∧
    shim_read (shim_write sampleConsts dev0 4 1 4).1 4 4 = 0 ∧
    ¬ (shim_write sampleConsts dev0 4 1 4).1.region (4 >>> 2) = 1 % 2 ^ 32 := by
  decide

/-- C1 (amended): when the address is one of the command, notify, mask and
control/status offsets (and the command and notify words are not the ISRX
word), after `shim_write` the word at index `addr >> 2` is the low 32 bits of
the written value and `shim_read` returns it; for every other address
`shim_write` stores nothing: the state is unchanged and no message or
interrupt-line action is produced. -/
theorem shim_write_store_iff_recognized (k : ShimConsts) (s : adsp_dev)
    (addr val size rsize : Nat)
    (hD : k.SHIM_IPCD >>> 2 ≠ k.SHIM_ISRX >>> 2)
    (hX : k.SHIM_IPCX >>> 2 ≠ k.SHIM_ISRX >>> 2) :
    ((addr = k.SHIM_IPCD ∨ addr = k.SHIM_IPCX ∨ addr = k.SHIM_IMRD ∨ addr = k.SHIM_CSR) →
        (shim_write k s addr val size).1.region (addr >>> 2) = val % 2 ^ 32 ∧
        shim_read (shim_write k s addr val size).1 addr rsize = val % 2 ^ 32) ∧
    ((addr ≠ k.SHIM_IPCD ∧ addr ≠ k.SHIM_IPCX ∧ addr ≠ k.SHIM_IMRD ∧ addr ≠ k.SHIM_CSR) →
        shim_write k s addr val size = (s, [])) := by
  constructor
  · intro hrec
    have key : (shim_write k s addr val size).1.region (addr >>> 2) = val % 2 ^ 32 := by
      unfold shim_write
      by_cases h1 : addr = k.SHIM_IPCD
      · have hne : addr >>> 2 ≠ k.SHIM_ISRX >>> 2 := by rw [h1]; exact hD
        simp [h1, region_set, hD]
      · by_cases h2 : addr = k.SHIM_IPCX
        · have hne : k.SHIM_IPCX ≠ k.SHIM_IPCD := by rw [← h2]; exact h1
          simp [h2, hne, region_set, hX]
        · by_cases h3 : addr = k.SHIM_IMRD
          · have hne1 : k.SHIM_IMRD ≠ k.SHIM_IPCD := by rw [← h3]; exact h1
            have hne2 : k.SHIM_IMRD ≠ k.SHIM_IPCX := by rw [← h3]; exact h2
            simp only [h3, hne1, hne2, if_false]
            split_ifs <;> simp [adsp_set_lvl1_irq, region_set]
          · have h4 : addr = k.SHIM_CSR := by
              rcases hrec with h | h | h | h
              · exact absurd h h1
              · exact absurd h h2
              · exact absurd h h3
              · exact h
            have hne1 : k.SHIM_CSR ≠ k.SHIM_IPCD := by rw [← h4]; exact h1
            have hne2 : k.SHIM_CSR ≠ k.SHIM_IPCX := by rw [← h4]; exact h2
            have hne3 : k.SHIM_CSR ≠ k.SHIM_IMRD := by rw [← h4]; exact h3
            simp [h4, hne1, hne2, hne3, region_set]
    exact ⟨key, key⟩
  · rintro ⟨h1, h2, h3, h4⟩
    simp [shim_write, h1, h2, h3, h4]

/-- Witness of `shim_write_store_iff_recognized`: a write of 7 to the mask
register of the sample table. -/
theorem shim_write_store_iff_recognized_witness :
    (sampleConsts.SHIM_IPCD >>> 2 ≠ sampleConsts.SHIM_ISRX >>> 2 ∧
      sampleConsts.SHIM_IPCX >>> 2 ≠ sampleConsts.SHIM_ISRX >>> 2) ∧
    (shim_write sampleConsts dev0 0x30 7 4).1.region (0x30 >>> 2) = 7 % 2 ^ 32 ∧
    shim_write sampleConsts dev0 4 7 4 = (dev0, []) :=
  ⟨⟨by decide, by decide⟩,
   ((shim_write_store_iff_recognized sampleConsts dev0 0x30 7 4 4 (by decide) (by decide)).1
      (by decide)).1,
   (shim_write_store_iff_recognized sampleConsts dev0 4 7 4 4 (by decide) (by decide)).2
      (by decide)⟩

/-- C2: after a write of `val` to the command register (`SHIM_IPCD`) or to the
notify register (`SHIM_IPCX`), the ISRX word has its busy bit set exactly when
`val` has that register's busy bit set, and its done bit set exactly when `val`
has that register's done bit set, whatever the register file held before.
The ISRX busy and done masks are nonzero 32-bit masks with no common bit. -/
theorem shim_write_status_mirroring (k : ShimConsts) (s : adsp_dev) (val size : Nat)
    (hB0 : k.SHIM_ISRX_BUSY ≠ 0) (hD0 : k.SHIM_ISRX_DONE ≠ 0)
    (hB : k.SHIM_ISRX_BUSY < 2 ^ 32) (hD : k.SHIM_ISRX_DONE < 2 ^ 32)
    (hdisj : k.SHIM_ISRX_BUSY &&& k.SHIM_ISRX_DONE = 0)
    (hne : k.SHIM_IPCX ≠ k.SHIM_IPCD) :
    (((shim_write k s k.SHIM_IPCD val size).1.region (k.SHIM_ISRX >>> 2)
          &&& k.SHIM_ISRX_BUSY ≠ 0 ↔ val &&& k.SHIM_IPCD_BUSY ≠ 0) ∧
      ((shim_write k s k.SHIM_IPCD val size).1.region (k.SHIM_ISRX >>> 2)
          &&& k.SHIM_ISRX_DONE ≠ 0 ↔ val &&& k.SHIM_IPCD_DONE ≠ 0)) ∧
    (((shim_write k s k.SHIM_IPCX val size).1.region (k.SHIM_ISRX >>> 2)
          &&& k.SHIM_ISRX_BUSY ≠ 0 ↔ val &&& k.SHIM_IPCX_BUSY ≠ 0) ∧
      ((shim_write k s k.SHIM_IPCX val size).1.region (k.SHIM_ISRX >>> 2)
          &&& k.SHIM_ISRX_DONE ≠ 0 ↔ val &&& k.SHIM_IPCX_DONE ≠ 0)) := by
  have hmod : ∀ old busy done, mirror_isrx k old val busy done % 2 ^ 32
      = mirror_isrx k old val busy done :=
    fun old busy done => Nat.mod_eq_of_lt (mirror_isrx_lt k old val busy done)
  have eD : (shim_write k s k.SHIM_IPCD val size).1.region (k.SHIM_ISRX >>> 2)
      = mirror_isrx k (region_set s.region (k.SHIM_IPCD >>> 2) val (k.SHIM_ISRX >>> 2)) val
          k.SHIM_IPCD_BUSY k.SHIM_IPCD_DONE := by
    simp only [shim_write, if_true, region_set_same, hmod]
  have eX : (shim_write k s k.SHIM_IPCX val size).1.region (k.SHIM_ISRX >>> 2)
      = mirror_isrx k (region_set s.region (k.SHIM_IPCX >>> 2) val (k.SHIM_ISRX >>> 2)) val
          k.SHIM_IPCX_BUSY k.SHIM_IPCX_DONE := by
    simp only [shim_write, hne, if_false, if_true, region_set_same, hmod]
  rw [eD, eX]
  simp only [mirror_isrx_land_busy k _ val _ _ hB hdisj,
    mirror_isrx_land_done k _ val _ _ hD hdisj]
  refine ⟨⟨?_, ?_⟩, ⟨?_, ?_⟩⟩ <;> split_ifs with h <;> simp [h, hB0, hD0]

/-- Witness of `shim_write_status_mirroring`: the sample table, a write with
the busy bit set and the done bit clear. -/
theorem shim_write_status_mirroring_witness :
    (sampleConsts.SHIM_ISRX_BUSY ≠ 0 ∧ sampleConsts.SHIM_ISRX_DONE ≠ 0 ∧
      sampleConsts.SHIM_ISRX_BUSY < 2 ^ 32 ∧ sampleConsts.SHIM_ISRX_DONE < 2 ^ 32 ∧
      sampleConsts.SHIM_ISRX_BUSY &&& sampleConsts.SHIM_ISRX_DONE = 0 ∧
      sampleConsts.SHIM_IPCX ≠ sampleConsts.SHIM_IPCD) ∧
    ((shim_write sampleConsts dev0 sampleConsts.SHIM_IPCD 0x80000000 4).1.region
          (sampleConsts.SHIM_ISRX >>> 2) &&& sampleConsts.SHIM_ISRX_BUSY ≠ 0 ↔
        0x80000000 &&& sampleConsts.SHIM_IPCD_BUSY ≠ 0) :=
  ⟨by decide,
   (shim_write_status_mirroring sampleConsts dev0 0x80000000 4 (by decide) (by decide)
      (by decide) (by decide) (by decide) (by decide)).1.1⟩

/-- C7: a write of `val` to the command register (`SHIM_IPCD`) sends exactly one
interrupt message, with line 0, when `val` has the command busy bit set, and
sends nothing (the event list is empty) when that bit is clear, whatever the
other bits of `val` are. -/
theorem shim_write_ipcd_notification (k : ShimConsts) (s : adsp_dev) (val size : Nat) :
    (val &&& k.SHIM_IPCD_BUSY ≠ 0 →
        (shim_write k s k.SHIM_IPCD val size).2 =
          [Event.send_irq ⟨⟨k.QEMU_IO_TYPE_IRQ, k.QEMU_IO_MSG_IRQ, k.sizeof_irq⟩, 0⟩]) ∧
    (val &&& k.SHIM_IPCD_BUSY = 0 → (shim_write k s k.SHIM_IPCD val size).2 = []) := by
  constructor <;> intro h <;> simp [shim_write, irq_msg, h]

/-- Witness of `shim_write_ipcd_notification`: busy set sends one message; done
set with busy clear sends none. -/
theorem shim_write_ipcd_notification_witness :
    (shim_write sampleConsts dev0 sampleConsts.SHIM_IPCD 0x80000000 4).2 =
        [Event.send_irq ⟨⟨sampleConsts.QEMU_IO_TYPE_IRQ, sampleConsts.QEMU_IO_MSG_IRQ,
                          sampleConsts.sizeof_irq⟩, 0⟩] ∧
    (shim_write sampleConsts dev0 sampleConsts.SHIM_IPCD 0x40000000 4).2 = [] :=
  ⟨(shim_write_ipcd_notification sampleConsts dev0 0x80000000 4).1 (by decide),
   (shim_write_ipcd_notification sampleConsts dev0 0x40000000 4).2 (by decide)⟩

/-- C8: a write of `val` to the notify register (`SHIM_IPCX`) sends exactly one
interrupt message, with line 0, when `val` has the notify done bit set, and
sends nothing when the done bit is clear, even if the busy bit is set. -/
theorem shim_write_ipcx_notification (k : ShimConsts) (s : adsp_dev) (val size : Nat)
    (hne : k.SHIM_IPCX ≠ k.SHIM_IPCD) :
    (val &&& k.SHIM_IPCX_DONE ≠ 0 →
        (shim_write k s k.SHIM_IPCX val size).2 =
          [Event.send_irq ⟨⟨k.QEMU_IO_TYPE_IRQ, k.QEMU_IO_MSG_IRQ, k.sizeof_irq⟩, 0⟩]) ∧
    (val &&& k.SHIM_IPCX_DONE = 0 → (shim_write k s k.SHIM_IPCX val size).2 = []) := by
  constructor <;> intro h <;> simp [shim_write, irq_msg, h, hne]

/-- Witness of `shim_write_ipcx_notification`: done set sends one message; busy
set with done clear sends none. -/
theorem shim_write_ipcx_notification_witness :
    sampleConsts.SHIM_IPCX ≠ sampleConsts.SHIM_IPCD ∧
    (shim_write sampleConsts dev0 sampleConsts.SHIM_IPCX 0x40000000 4).2 =
        [Event.send_irq ⟨⟨sampleConsts.QEMU_IO_TYPE_IRQ, sampleConsts.QEMU_IO_MSG_IRQ,
                          sampleConsts.sizeof_irq⟩, 0⟩] ∧
    (shim_write sampleConsts dev0 sampleConsts.SHIM_IPCX 0x80000000 4).2 = [] :=
  ⟨by decide,
   (shim_write_ipcx_notification sampleConsts dev0 0x40000000 4 (by decide)).1 (by decide),
   (shim_write_ipcx_notification sampleConsts dev0 0x80000000 4 (by decide)).2 (by decide)⟩

/-- C5: a write of `val` to the mask register (`SHIM_IMRD`) stores `val` there
and computes `active = ISRD & ~IMRD`, as 32-bit words, from the updated
register file; when `active` is zero (every ISRD bit below 32 is masked by
the IMRD bit) it makes exactly one call driving the line `ia_irq` to level 0,
when `active` is nonzero (some ISRD bit is set with its IMRD bit clear) it
makes no call at all and the line keeps its level; in both cases no message
is sent. -/
theorem shim_write_imrd (k : ShimConsts) (s : adsp_dev) (val size : Nat)
    (h1 : k.SHIM_IMRD ≠ k.SHIM_IPCD) (h2 : k.SHIM_IMRD ≠ k.SHIM_IPCX) :
    (shim_write k s k.SHIM_IMRD val size).1.region
        = region_set s.region (k.SHIM_IMRD >>> 2) val ∧
    (shim_write k s k.SHIM_IMRD val size).1.region (k.SHIM_IMRD >>> 2) = val % 2 ^ 32 ∧
    ((shim_write k s k.SHIM_IMRD val size).1.region (k.SHIM_ISRD >>> 2) &&&
          (0xFFFFFFFF ^^^
            ((shim_write k s k.SHIM_IMRD val size).1.region (k.SHIM_IMRD >>> 2) % 2 ^ 32)) = 0 →
        (shim_write k s k.SHIM_IMRD val size).2 = [Event.set_lvl1_irq s.ia_irq 0] ∧
        (shim_write k s k.SHIM_IMRD val size).1.lvl1 s.ia_irq = 0) ∧
    ((shim_write k s k.SHIM_IMRD val size).1.region (k.SHIM_ISRD >>> 2) &&&
          (0xFFFFFFFF ^^^
            ((shim_write k s k.SHIM_IMRD val size).1.region (k.SHIM_IMRD >>> 2) % 2 ^ 32)) ≠ 0 →
        (shim_write k s k.SHIM_IMRD val size).2 = [] ∧
        (shim_write k s k.SHIM_IMRD val size).1.lvl1 = s.lvl1) ∧
    (∀ e ∈ (shim_write k s k.SHIM_IMRD val size).2,
        (∀ m, e ≠ Event.send_irq m) ∧ (∀ m, e ≠ Event.send_reg32 m)) ∧
    ((∀ i, i < 32 →
          ((shim_write k s k.SHIM_IMRD val size).1.region (k.SHIM_ISRD >>> 2)).testBit i = true →
          ((shim_write k s k.SHIM_IMRD val size).1.region (k.SHIM_IMRD >>> 2)).testBit i = true) →
        (shim_write k s k.SHIM_IMRD val size).2 = [Event.set_lvl1_irq s.ia_irq 0] ∧
        (shim_write k s k.SHIM_IMRD val size).1.lvl1 s.ia_irq = 0) ∧
    ((∃ i, i < 32 ∧
          ((shim_write k s k.SHIM_IMRD val size).1.region (k.SHIM_ISRD >>> 2)).testBit i = true ∧
          ((shim_write k s k.SHIM_IMRD val size).1.region (k.SHIM_IMRD >>> 2)).testBit i = false) →
        (shim_write k s k.SHIM_IMRD val size).2 = [] ∧
        (shim_write k s k.SHIM_IMRD val size).1.lvl1 = s.lvl1) := by
  have hreg : (shim_write k s k.SHIM_IMRD val size).1.region
      = region_set s.region (k.SHIM_IMRD >>> 2) val := by
    simp only [shim_write, h1, h2, if_false, if_true]
    split_ifs <;> simp [adsp_set_lvl1_irq]
  have hzero : andNot32 (region_set s.region (k.SHIM_IMRD >>> 2) val (k.SHIM_ISRD >>> 2))
        (region_set s.region (k.SHIM_IMRD >>> 2) val (k.SHIM_IMRD >>> 2)) = 0 →
      (shim_write k s k.SHIM_IMRD val size).2 = [Event.set_lvl1_irq s.ia_irq 0] ∧
      (shim_write k s k.SHIM_IMRD val size).1.lvl1 s.ia_irq = 0 := by
    intro h
    simp [shim_write, h1, h2, h, adsp_set_lvl1_irq]
  have hnz : andNot32 (region_set s.region (k.SHIM_IMRD >>> 2) val (k.SHIM_ISRD >>> 2))
        (region_set s.region (k.SHIM_IMRD >>> 2) val (k.SHIM_IMRD >>> 2)) ≠ 0 →
      (shim_write k s k.SHIM_IMRD val size).2 = [] ∧
      (shim_write k s k.SHIM_IMRD val size).1.lvl1 = s.lvl1 := by
    intro h
    simp [shim_write, h1, h2, h]
  refine ⟨hreg, ?_, ?_, ?_, ?_, ?_, ?_⟩
  · rw [hreg, region_set_same]
  · rw [hreg]
    intro h
    exact hzero h
  · rw [hreg]
    intro h
    exact hnz h
  · intro e he
    simp only [shim_write, h1, h2, if_false, if_true] at he
    split_ifs at he <;> simp [adsp_set_lvl1_irq] at he
    subst he
    simp
  · rw [hreg]
    intro h
    exact hzero ((andNot32_eq_zero_iff _ _).mpr h)
  · rw [hreg]
    intro h
    exact hnz ((andNot32_ne_zero_iff _ _).mpr h)

/-- Witness of `shim_write_imrd`: with ISRD bit 0 pending, writing the mask 1
masks it and drives the line low once; writing the mask 2 leaves it active
and makes no call. -/
theorem shim_write_imrd_witness :
    (sampleConsts.SHIM_IMRD ≠ sampleConsts.SHIM_IPCD ∧
      sampleConsts.SHIM_IMRD ≠ sampleConsts.SHIM_IPCX) ∧
    ((shim_write sampleConsts dev_pending sampleConsts.SHIM_IMRD 1 4).1.region
        (sampleConsts.SHIM_ISRD >>> 2) = 1 ∧
      (shim_write sampleConsts dev_pending sampleConsts.SHIM_IMRD 1 4).1.region
        (sampleConsts.SHIM_IMRD >>> 2) = 1) ∧
    (shim_write sampleConsts dev_pending sampleConsts.SHIM_IMRD 1 4).2
      = [Event.set_lvl1_irq dev_pending.ia_irq 0] ∧
    (shim_write sampleConsts dev_pending sampleConsts.SHIM_IMRD 2 4).2 = [] :=
  ⟨by decide, by decide,
   ((shim_write_imrd sampleConsts dev_pending 1 4 (by decide) (by decide)).2.2.1
      (by decide)).1,
   ((shim_write_imrd sampleConsts dev_pending 2 4 (by decide) (by decide)).2.2.2.1
      (by decide)).1⟩

/-- C9: a write of `val` to the control/status register (`SHIM_CSR`) sends
exactly one 32-bit register-write message whose `reg` is the written address
and whose `val` is `val` modulo 2^32, the word `shim_read` of `SHIM_CSR` returns
right afterwards; `in_reset` and the interrupt line are untouched. -/
theorem shim_write_csr (k : ShimConsts) (s : adsp_dev) (val size rsize : Nat)
    (h1 : k.SHIM_CSR ≠ k.SHIM_IPCD) (h2 : k.SHIM_CSR ≠ k.SHIM_IPCX)
    (h3 : k.SHIM_CSR ≠ k.SHIM_IMRD) (h32 : k.SHIM_CSR < 2 ^ 32) :
    (shim_write k s k.SHIM_CSR val size).2 =
        [Event.send_reg32 ⟨⟨k.QEMU_IO_TYPE_REG, k.QEMU_IO_MSG_REG32W, k.sizeof_reg32⟩,
                           k.SHIM_CSR, val % 2 ^ 32⟩] ∧
    shim_read (shim_write k s k.SHIM_CSR val size).1 k.SHIM_CSR rsize = val % 2 ^ 32 ∧
    (shim_write k s k.SHIM_CSR val size).1.in_reset = s.in_reset ∧
    (shim_write k s k.SHIM_CSR val size).1.lvl1 = s.lvl1 := by
  simp [shim_write, shim_read, h1, h2, h3, region_set]
  omega

/-- Witness of `shim_write_csr`: a write of zero is forwarded too. -/
theorem shim_write_csr_witness :
    (sampleConsts.SHIM_CSR ≠ sampleConsts.SHIM_IPCD ∧
      sampleConsts.SHIM_CSR ≠ sampleConsts.SHIM_IPCX ∧
      sampleConsts.SHIM_CSR ≠ sampleConsts.SHIM_IMRD ∧ sampleConsts.SHIM_CSR < 2 ^ 32) ∧
    (shim_write sampleConsts dev0 sampleConsts.SHIM_CSR 0 4).2 =
        [Event.send_reg32 ⟨⟨sampleConsts.QEMU_IO_TYPE_REG, sampleConsts.QEMU_IO_MSG_REG32W,
                             sampleConsts.sizeof_reg32⟩, sampleConsts.SHIM_CSR, 0 % 2 ^ 32⟩] :=
  ⟨by decide,
   (shim_write_csr sampleConsts dev0 0 4 4 (by decide) (by decide) (by decide) (by decide)).1⟩

/-! ## The host message path -/

/-- C3: on a host register-write message addressed to the control/status
register `do_shim32` does exactly one of three things: (1) not in reset and
reset bit set: one core reset (nothing else, so no VM stop) and `in_reset`
becomes true; (2) in reset and stall bit clear: one core resume followed by
one execution start and `in_reset` becomes false; (3) otherwise: no command,
state unchanged. -/
theorem do_shim32_csr_table (k : ShimConsts) (s : adsp_dev) (m : qemu_io_msg)
    (hreg : m.reg = k.SHIM_CSR) :
    (s.in_reset = false ∧ m.val &&& k.SHIM_CSR_HSW_RST ≠ 0 →
        do_shim32 k s m = ({ s with in_reset := true }, [Event.cpu_reset])) ∧
    (s.in_reset = true ∧ m.val &&& k.SHIM_CSR_HSW_STALL = 0 →
        do_shim32 k s m = ({ s with in_reset := false }, [Event.cpu_resume, Event.vm_start])) ∧
    (¬ (s.in_reset = false ∧ m.val &&& k.SHIM_CSR_HSW_RST ≠ 0) ∧
      ¬ (s.in_reset = true ∧ m.val &&& k.SHIM_CSR_HSW_STALL = 0) →
        do_shim32 k s m = (s, [])) := by
  refine ⟨?_, ?_, ?_⟩
  · rintro ⟨h, hv⟩
    simp [do_shim32, hreg, h, hv]
  · rintro ⟨h, hv⟩
    simp [do_shim32, hreg, h, hv]
  · rintro ⟨ha, hb⟩
    cases hr : s.in_reset
    · have hv : m.val &&& k.SHIM_CSR_HSW_RST = 0 := by
        by_contra hc
        exact ha ⟨hr, hc⟩
      simp [do_shim32, hreg, hr, hv]
    · have hv : m.val &&& k.SHIM_CSR_HSW_STALL ≠ 0 := fun hc => hb ⟨hr, hc⟩
      simp [do_shim32, hreg, hr, hv]

/-- Witness of `do_shim32_csr_table`: from the running state a value with the
reset bit set resets the core. -/
theorem do_shim32_csr_table_witness :
    (⟨1, 32, 24, 0, 2⟩ : qemu_io_msg).reg = sampleConsts.SHIM_CSR ∧
    (do_shim32 sampleConsts dev0 ⟨1, 32, 24, 0, 2⟩).2 = [Event.cpu_reset] ∧
    (do_shim32 sampleConsts dev0 ⟨1, 32, 24, 0, 2⟩).1.in_reset = true :=
  ⟨by decide,
   congrArg Prod.snd
     ((do_shim32_csr_table sampleConsts dev0 ⟨1, 32, 24, 0, 2⟩ (by decide)).1 (by decide)),
   congrArg (fun r => r.1.in_reset)
     ((do_shim32_csr_table sampleConsts dev0 ⟨1, 32, 24, 0, 2⟩ (by decide)).1 (by decide))⟩

/-- C4: starting with `in_reset = false`, a host control/status write of `v1`
(reset bit set) followed by one of `v2` (stall bit clear), delivered through
`adsp_bdw_shim_msg`, yields `in_reset = true` and a core reset after the first
message, `in_reset = false` and core resume, execution start after the second:
in all the commands core reset, core resume, execution start.  This holds for
the 32-bit message kind with the masks of `do_shim32` and for the 64-bit kind
with the masks of `do_shim64`; the stall bit of `v1` plays no part. -/
theorem reset_stall_scenario (k : ShimConsts) (s : adsp_dev)
    (t1 z1 t2 z2 v1 v2 : Nat) (h0 : s.in_reset = false)
    (hk1 : k.QEMU_IO_MSG_REG64W ≠ k.QEMU_IO_MSG_REG32W)
    (hk2 : k.QEMU_IO_MSG_REG64W ≠ k.QEMU_IO_MSG_REG32R) :
    (v1 &&& k.SHIM_CSR_HSW_RST ≠ 0 → v2 &&& k.SHIM_CSR_HSW_STALL = 0 →
      adsp_bdw_shim_msg k s ⟨t1, k.QEMU_IO_MSG_REG32W, z1, k.SHIM_CSR, v1⟩
        = ({ s with in_reset := true }, [Event.cpu_reset]) ∧
      adsp_bdw_shim_msg k { s with in_reset := true }
          ⟨t2, k.QEMU_IO_MSG_REG32W, z2, k.SHIM_CSR, v2⟩
        = ({ s with in_reset := false }, [Event.cpu_resume, Event.vm_start]) ∧
      andThen (adsp_bdw_shim_msg k s ⟨t1, k.QEMU_IO_MSG_REG32W, z1, k.SHIM_CSR, v1⟩)
          (fun s1 => adsp_bdw_shim_msg k s1 ⟨t2, k.QEMU_IO_MSG_REG32W, z2, k.SHIM_CSR, v2⟩)
        = ({ s with in_reset := false },
           [Event.cpu_reset, Event.cpu_resume, Event.vm_start])) ∧
    (v1 &&& k.SHIM_CSR_RST ≠ 0 → v2 &&& k.SHIM_CSR_STALL = 0 →
      adsp_bdw_shim_msg k s ⟨t1, k.QEMU_IO_MSG_REG64W, z1, k.SHIM_CSR, v1⟩
        = ({ s with in_reset := true }, [Event.cpu_reset]) ∧
      adsp_bdw_shim_msg k { s with in_reset := true }
          ⟨t2, k.QEMU_IO_MSG_REG64W, z2, k.SHIM_CSR, v2⟩
        = ({ s with in_reset := false }, [Event.cpu_resume, Event.vm_start]) ∧
      andThen (adsp_bdw_shim_msg k s ⟨t1, k.QEMU_IO_MSG_REG64W, z1, k.SHIM_CSR, v1⟩)
          (fun s1 => adsp_bdw_shim_msg k s1 ⟨t2, k.QEMU_IO_MSG_REG64W, z2, k.SHIM_CSR, v2⟩)
        = ({ s with in_reset := false },
           [Event.cpu_reset, Event.cpu_resume, Event.vm_start])) := by
  constructor
  · intro hv1 hv2
    have e1 : adsp_bdw_shim_msg k s ⟨t1, k.QEMU_IO_MSG_REG32W, z1, k.SHIM_CSR, v1⟩
        = ({ s with in_reset := true }, [Event.cpu_reset]) := by
      simp [adsp_bdw_shim_msg, do_shim32, h0, hv1]
    have e2 : adsp_bdw_shim_msg k { s with in_reset := true }
          ⟨t2, k.QEMU_IO_MSG_REG32W, z2, k.SHIM_CSR, v2⟩
        = ({ s with in_reset := false }, [Event.cpu_resume, Event.vm_start]) := by
      simp [adsp_bdw_shim_msg, do_shim32, hv2]
    refine ⟨e1, e2, ?_⟩
    simp only [andThen, e1, e2, List.singleton_append]
  · intro hv1 hv2
    have e1 : adsp_bdw_shim_msg k s ⟨t1, k.QEMU_IO_MSG_REG64W, z1, k.SHIM_CSR, v1⟩
        = ({ s with in_reset := true }, [Event.cpu_reset]) := by
      simp [adsp_bdw_shim_msg, do_shim64, h0, hv1, hk1, hk2]
    have e2 : adsp_bdw_shim_msg k { s with in_reset := true }
          ⟨t2, k.QEMU_IO_MSG_REG64W, z2, k.SHIM_CSR, v2⟩
        = ({ s with in_reset := false }, [Event.cpu_resume, Event.vm_start]) := by
      simp [adsp_bdw_shim_msg, do_shim64, hv2, hk1, hk2]
    refine ⟨e1, e2, ?_⟩
    simp only [andThen, e1, e2, List.singleton_append]

/-- Witness of `reset_stall_scenario`: the sample table, `v1 = 2` (reset set,
stall clear) and `v2 = 0`, as 32-bit messages. -/
theorem reset_stall_scenario_witness :
    (dev0.in_reset = false ∧
      sampleConsts.QEMU_IO_MSG_REG64W ≠ sampleConsts.QEMU_IO_MSG_REG32W ∧
      sampleConsts.QEMU_IO_MSG_REG64W ≠ sampleConsts.QEMU_IO_MSG_REG32R ∧
      2 &&& sampleConsts.SHIM_CSR_HSW_RST ≠ 0 ∧ 0 &&& sampleConsts.SHIM_CSR_HSW_STALL = 0) ∧
    (andThen
        (adsp_bdw_shim_msg sampleConsts dev0
          ⟨1, sampleConsts.QEMU_IO_MSG_REG32W, 24, sampleConsts.SHIM_CSR, 2⟩)
        (fun s1 => adsp_bdw_shim_msg sampleConsts s1
          ⟨1, sampleConsts.QEMU_IO_MSG_REG32W, 24, sampleConsts.SHIM_CSR, 0⟩)).2
      = [Event.cpu_reset, Event.cpu_resume, Event.vm_start] :=
  ⟨by decide,
   congrArg Prod.snd
     ((reset_stall_scenario sampleConsts dev0 1 24 1 24 2 0 rfl (by decide) (by decide)).1
        (by decide) (by decide)).2.2⟩

/-- C6: `adsp_bdw_irq_msg` computes `active = ISRD & ~IMRD` as 32-bit words;
when `active` is nonzero (some ISRD bit is set with its IMRD bit clear) it
makes one call driving the line `ia_irq` to level 1 (between taking and
releasing the iothread mutex); when `active` is zero (every ISRD bit below 32
is masked) it does nothing, in particular it does not drive the line low;
the message argument has no influence on the outcome. -/
theorem adsp_bdw_irq_msg_reevaluation (k : ShimConsts) (s : adsp_dev) (m m' : qemu_io_msg) :
    (s.region (k.SHIM_ISRD >>> 2) &&&
          (0xFFFFFFFF ^^^ (s.region (k.SHIM_IMRD >>> 2) % 2 ^ 32)) ≠ 0 →
        (adsp_bdw_irq_msg k s m).2 =
          [Event.mutex_lock_iothread, Event.set_lvl1_irq s.ia_irq 1,
           Event.mutex_unlock_iothread] ∧
        (adsp_bdw_irq_msg k s m).1.lvl1 s.ia_irq = 1 ∧
        (adsp_bdw_irq_msg k s m).1.region = s.region ∧
        (adsp_bdw_irq_msg k s m).1.in_reset = s.in_reset) ∧
    (s.region (k.SHIM_ISRD >>> 2) &&&
          (0xFFFFFFFF ^^^ (s.region (k.SHIM_IMRD >>> 2) % 2 ^ 32)) = 0 →
        adsp_bdw_irq_msg k s m = (s, [])) ∧
    adsp_bdw_irq_msg k s m = adsp_bdw_irq_msg k s m' ∧
    ((∃ i, i < 32 ∧ (s.region (k.SHIM_ISRD >>> 2)).testBit i = true ∧
          (s.region (k.SHIM_IMRD >>> 2)).testBit i = false) →
        (adsp_bdw_irq_msg k s m).2 =
          [Event.mutex_lock_iothread, Event.set_lvl1_irq s.ia_irq 1,
           Event.mutex_unlock_iothread] ∧
        (adsp_bdw_irq_msg k s m).1.lvl1 s.ia_irq = 1) ∧
    ((∀ i, i < 32 → (s.region (k.SHIM_ISRD >>> 2)).testBit i = true →
          (s.region (k.SHIM_IMRD >>> 2)).testBit i = true) →
        adsp_bdw_irq_msg k s m = (s, [])) := by
  have hnz : andNot32 (s.region (k.SHIM_ISRD >>> 2)) (s.region (k.SHIM_IMRD >>> 2)) ≠ 0 →
      (adsp_bdw_irq_msg k s m).2 =
          [Event.mutex_lock_iothread, Event.set_lvl1_irq s.ia_irq 1,
           Event.mutex_unlock_iothread] ∧
        (adsp_bdw_irq_msg k s m).1.lvl1 s.ia_irq = 1 ∧
        (adsp_bdw_irq_msg k s m).1.region = s.region ∧
        (adsp_bdw_irq_msg k s m).1.in_reset = s.in_reset := by
    intro h
    simp [adsp_bdw_irq_msg, adsp_set_lvl1_irq, h]
  have hzero : andNot32 (s.region (k.SHIM_ISRD >>> 2)) (s.region (k.SHIM_IMRD >>> 2)) = 0 →
      adsp_bdw_irq_msg k s m = (s, []) := by
    intro h
    simp [adsp_bdw_irq_msg, h]
  refine ⟨fun h => hnz h, fun h => hzero h, rfl, ?_, ?_⟩
  · intro h
    have hr := hnz ((andNot32_ne_zero_iff _ _).mpr h)
    exact ⟨hr.1, hr.2.1⟩
  · intro h
    exact hzero ((andNot32_eq_zero_iff _ _).mpr h)

/-- Witness of `adsp_bdw_irq_msg_reevaluation`: a pending unmasked status bit
raises the line; the same pending bit with its mask bit set leaves the line
alone. -/
theorem adsp_bdw_irq_msg_reevaluation_witness :
    (dev_masked.region (sampleConsts.SHIM_ISRD >>> 2) = 1 ∧
      dev_masked.region (sampleConsts.SHIM_IMRD >>> 2) = 1 ∧
      dev_pending.region (sampleConsts.SHIM_ISRD >>> 2) = 1 ∧
      dev_pending.region (sampleConsts.SHIM_IMRD >>> 2) = 0) ∧
    (adsp_bdw_irq_msg sampleConsts dev_pending ⟨2, 36, 20, 0, 0⟩).2 =
        [Event.mutex_lock_iothread, Event.set_lvl1_irq 4 1, Event.mutex_unlock_iothread] ∧
    adsp_bdw_irq_msg sampleConsts dev_masked ⟨2, 36, 20, 0, 0⟩ = (dev_masked, []) :=
  ⟨by decide,
   ((adsp_bdw_irq_msg_reevaluation sampleConsts dev_pending ⟨2, 36, 20, 0, 0⟩
        ⟨2, 36, 20, 0, 0⟩).1 (by decide)).1,
   (adsp_bdw_irq_msg_reevaluation sampleConsts dev_masked ⟨2, 36, 20, 0, 0⟩
        ⟨2, 36, 20, 0, 0⟩).2.1 (by decide)⟩

/-- C10: a host register-write message, 32-bit or 64-bit, whose register
address is not the control/status offset is a no-op of `adsp_bdw_shim_msg`:
the whole state (register file, `in_reset`, interrupt line) is unchanged and no
core reset, resume or execution start (no call at all) is issued. -/
theorem adsp_bdw_shim_msg_unknown_reg (k : ShimConsts) (s : adsp_dev) (m : qemu_io_msg)
    (hreg : m.reg ≠ k.SHIM_CSR) :
    adsp_bdw_shim_msg k s m = (s, []) := by
  unfold adsp_bdw_shim_msg
  split_ifs <;> simp [do_shim32, do_shim64, hreg]

/-- Witness of `adsp_bdw_shim_msg_unknown_reg`: a 64-bit write of a value with
every reset and stall bit set to offset 8. -/
theorem adsp_bdw_shim_msg_unknown_reg_witness :
    (⟨1, 34, 32, 8, 0xFFFFFFFF⟩ : qemu_io_msg).reg ≠ sampleConsts.SHIM_CSR ∧
    adsp_bdw_shim_msg sampleConsts dev0 ⟨1, 34, 32, 8, 0xFFFFFFFF⟩ = (dev0, []) :=
  ⟨by decide, adsp_bdw_shim_msg_unknown_reg sampleConsts dev0 ⟨1, 34, 32, 8, 0xFFFFFFFF⟩
    (by decide)⟩

/-! ## Reset, reads and the shape of the host handlers -/

theorem shiftRight_two (a : Nat) : a >>> 2 = a / 4 := by
  rw [Nat.shiftRight_eq_div_pow]

theorem shim_reset_word_in_range (size : Nat) (s : adsp_dev) (addr : Nat)
    (h4 : size % 4 = 0) (h : addr < size) :
    (shim_reset size s).region (addr >>> 2) = 0 := by
  have hw : 4 * (addr >>> 2) + 4 ≤ size := by
    rw [shiftRight_two]; omega
  simp [shim_reset, hw]

theorem map_eq_replicate_zero (f : Nat × Nat → Nat) (l : List (Nat × Nat))
    (h : ∀ p ∈ l, f p = 0) : l.map f = List.replicate l.length 0 := by
  induction l with
  | nil => rfl
  | cons a t ih =>
    have ha : f a = 0 := h a (List.mem_cons_self a t)
    have ht : ∀ p ∈ t, f p = 0 := fun p hp => h p (List.mem_cons_of_mem a hp)
    simp [List.replicate_succ, ha, ih ht]

theorem run_reads_eq (s : adsp_dev) (reads : List (Nat × Nat)) :
    run_reads s reads = ((s, []), reads.map (fun p => s.region (p.1 >>> 2))) := by
  induction reads with
  | nil => rfl
  | cons p rest ih => simp [run_reads, shim_read_st, shim_read, ih]

/-- C11: after `shim_reset` (descriptor size a whole number of words) every
read of every finite sequence of `shim_read` calls at addresses inside the
descriptor's byte range returns 0, and the sequence leaves the state as the
reset left it and makes no call; in general `shim_read` returns the word at
index `addr >> 2` for any access size and leaves the whole state (register
file, `in_reset`, interrupt line) unchanged. -/
theorem shim_reset_reads_zero (size : Nat) (s : adsp_dev) (reads : List (Nat × Nat))
    (h4 : size % 4 = 0) (hin : ∀ p ∈ reads, p.1 < size) :
    (run_reads (shim_reset size s) reads).2 = List.replicate reads.length 0 ∧
    (run_reads (shim_reset size s) reads).1 = (shim_reset size s, []) ∧
    (∀ (t : adsp_dev) (addr sz : Nat),
        shim_read_st t addr sz = ((t, []), t.region (addr >>> 2))) := by
  refine ⟨?_, ?_, fun _ _ _ => rfl⟩
  · rw [run_reads_eq]
    exact map_eq_replicate_zero _ reads
      (fun p hp => shim_reset_word_in_range size s p.1 h4 (hin p hp))
  · rw [run_reads_eq]

/-- Witness of `shim_reset_reads_zero`: a register file of all ones, reset
with a 256-byte descriptor, then read at three addresses with three sizes. -/
theorem shim_reset_reads_zero_witness :
    (0x100 % 4 = 0 ∧ ∀ p ∈ [((0 : Nat), (4 : Nat)), (0x41, 1), (0xFF, 8)], p.1 < 0x100) ∧
    (run_reads (shim_reset 0x100 dev_dirty) [(0, 4), (0x41, 1), (0xFF, 8)]).2
      = List.replicate 3 0 :=
  ⟨by decide,
   (shim_reset_reads_zero 0x100 dev_dirty [(0, 4), (0x41, 1), (0xFF, 8)] (by decide)
      (by decide)).1⟩

/-- C12: on a control/status write `do_shim32` and `do_shim64` are one state
machine up to their mask pair: when the value of the 32-bit message has the
32-bit reset bit set exactly when the value of the 64-bit message has the
64-bit reset bit set, and likewise for the stall bits, both handlers give the
same result (next `in_reset`, same calls, same state); each result is the one
the specification's machine gives on (`in_reset`, reset bit, stall bit). -/
theorem do_shim32_do_shim64_same_machine (k : ShimConsts) (s : adsp_dev)
    (m32 m64 : qemu_io_msg)
    (h32 : m32.reg = k.SHIM_CSR) (h64 : m64.reg = k.SHIM_CSR)
    (hrst : m32.val &&& k.SHIM_CSR_HSW_RST ≠ 0 ↔ m64.val &&& k.SHIM_CSR_RST ≠ 0)
    (hstall : m32.val &&& k.SHIM_CSR_HSW_STALL ≠ 0 ↔ m64.val &&& k.SHIM_CSR_STALL ≠ 0) :
    do_shim32 k s m32 = do_shim64 k s m64 ∧
    ((do_shim32 k s m32).1.in_reset, (do_shim32 k s m32).2)
      = reset_stall_machine s.in_reset (decide (m32.val &&& k.SHIM_CSR_HSW_RST ≠ 0))
          (decide (m32.val &&& k.SHIM_CSR_HSW_STALL ≠ 0)) ∧
    ((do_shim64 k s m64).1.in_reset, (do_shim64 k s m64).2)
      = reset_stall_machine s.in_reset (decide (m64.val &&& k.SHIM_CSR_RST ≠ 0))
          (decide (m64.val &&& k.SHIM_CSR_STALL ≠ 0)) ∧
    (do_shim32 k s m32).1.region = s.region ∧ (do_shim32 k s m32).1.lvl1 = s.lvl1 := by
  have e1 : decide (m32.val &&& k.SHIM_CSR_HSW_RST ≠ 0)
      = decide (m64.val &&& k.SHIM_CSR_RST ≠ 0) := decide_eq_decide.mpr hrst
  have e2 : decide (m32.val &&& k.SHIM_CSR_HSW_STALL ≠ 0)
      = decide (m64.val &&& k.SHIM_CSR_STALL ≠ 0) := decide_eq_decide.mpr hstall
  simp only [do_shim32, do_shim64, h32, h64, if_true, e1, e2]
  rcases s with ⟨r, b, q, l⟩
  cases b <;> cases decide (m64.val &&& k.SHIM_CSR_RST ≠ 0) <;>
    cases decide (m64.val &&& k.SHIM_CSR_STALL ≠ 0) <;> simp [reset_stall_machine]

/-- Witness of `do_shim32_do_shim64_same_machine`: in the sample table the
stall bit sits at bit 10 for the 32-bit variant and at bit 0 for the 64-bit
one; `0x402` and `0x3` both have reset and stall set. -/
theorem do_shim32_do_shim64_same_machine_witness :
    ((⟨1, 32, 24, 0, 0x402⟩ : qemu_io_msg).reg = sampleConsts.SHIM_CSR ∧
      (⟨1, 34, 32, 0, 0x3⟩ : qemu_io_msg).reg = sampleConsts.SHIM_CSR ∧
      (0x402 &&& sampleConsts.SHIM_CSR_HSW_RST ≠ 0 ↔ 0x3 &&& sampleConsts.SHIM_CSR_RST ≠ 0) ∧
      (0x402 &&& sampleConsts.SHIM_CSR_HSW_STALL ≠ 0 ↔
        0x3 &&& sampleConsts.SHIM_CSR_STALL ≠ 0)) ∧
    do_shim32 sampleConsts dev_dirty ⟨1, 32, 24, 0, 0x402⟩
      = do_shim64 sampleConsts dev_dirty ⟨1, 34, 32, 0, 0x3⟩ :=
  ⟨by decide,
   (do_shim32_do_shim64_same_machine sampleConsts dev_dirty ⟨1, 32, 24, 0, 0x402⟩
      ⟨1, 34, 32, 0, 0x3⟩ (by decide) (by decide) (by decide) (by decide)).1⟩

/-- C13: a message whose kind is the 32-bit read, the 64-bit read, or none of
the four register read/write kinds is inert: `adsp_bdw_shim_msg` returns the
state unchanged (register file, `in_reset`, interrupt line) and makes no call,
so no CPU command is issued and no message sent.  The two read tags differ
from the two write tags, as case labels of one `switch` do. -/
theorem adsp_bdw_shim_msg_inert (k : ShimConsts) (s : adsp_dev) (m : qemu_io_msg)
    (hr32 : k.QEMU_IO_MSG_REG32R ≠ k.QEMU_IO_MSG_REG32W)
    (hr64a : k.QEMU_IO_MSG_REG64R ≠ k.QEMU_IO_MSG_REG32W)
    (hr64b : k.QEMU_IO_MSG_REG64R ≠ k.QEMU_IO_MSG_REG64W)
    (hkind : m.msg = k.QEMU_IO_MSG_REG32R ∨ m.msg = k.QEMU_IO_MSG_REG64R ∨
      (m.msg ≠ k.QEMU_IO_MSG_REG32W ∧ m.msg ≠ k.QEMU_IO_MSG_REG32R ∧
        m.msg ≠ k.QEMU_IO_MSG_REG64W ∧ m.msg ≠ k.QEMU_IO_MSG_REG64R)) :
    adsp_bdw_shim_msg k s m = (s, []) := by
  unfold adsp_bdw_shim_msg
  rcases hkind with h | h | ⟨h1, h2, h3, h4⟩
  · simp [h, hr32]
  · rw [h]
    simp only [hr64a, hr64b, if_false]
    split_ifs <;> rfl
  · simp [h1, h2, h3, h4]

/-- Witness of `adsp_bdw_shim_msg_inert`: a 64-bit read message addressed to
the control/status register with every bit of the value set. -/
theorem adsp_bdw_shim_msg_inert_witness :
    (sampleConsts.QEMU_IO_MSG_REG32R ≠ sampleConsts.QEMU_IO_MSG_REG32W ∧
      sampleConsts.QEMU_IO_MSG_REG64R ≠ sampleConsts.QEMU_IO_MSG_REG32W ∧
      sampleConsts.QEMU_IO_MSG_REG64R ≠ sampleConsts.QEMU_IO_MSG_REG64W ∧
      (⟨1, 35, 32, 0, 0xFFFFFFFF⟩ : qemu_io_msg).msg = sampleConsts.QEMU_IO_MSG_REG64R) ∧
    adsp_bdw_shim_msg sampleConsts dev0 ⟨1, 35, 32, 0, 0xFFFFFFFF⟩ = (dev0, []) :=
  ⟨by decide,
   adsp_bdw_shim_msg_inert sampleConsts dev0 ⟨1, 35, 32, 0, 0xFFFFFFFF⟩ (by decide)
     (by decide) (by decide) (Or.inr (Or.inl (by decide)))⟩

/-! ## Interrupt line, wire format and frame properties -/

theorem adsp_dev_eq_of_fields (a b : adsp_dev) (h1 : a.region = b.region)
    (h2 : a.in_reset = b.in_reset) (h3 : a.ia_irq = b.ia_irq) (h4 : a.lvl1 = b.lvl1) :
    a = b := by
  cases a; cases b; simp_all

theorem region_set_idem (r : Nat → Nat) (i v : Nat) :
    region_set (region_set r i v) i v = region_set r i v := by
  funext j
  simp only [region_set]
  split_ifs <;> rfl

/-- The calls of one `shim_write`: none, one interrupt message, one call driving
the line low, or one register-write message. -/
theorem shim_write_events (k : ShimConsts) (s : adsp_dev) (addr val size : Nat) :
    (shim_write k s addr val size).2 = [] ∨
    (shim_write k s addr val size).2 = [Event.send_irq (irq_msg k)] ∨
    (shim_write k s addr val size).2 = [Event.set_lvl1_irq s.ia_irq 0] ∨
    (shim_write k s addr val size).2 =
      [Event.send_reg32 ⟨⟨k.QEMU_IO_TYPE_REG, k.QEMU_IO_MSG_REG32W, k.sizeof_reg32⟩,
                         addr % 2 ^ 32, val % 2 ^ 32⟩] := by
  by_cases hD : addr = k.SHIM_IPCD
  · by_cases hb : val &&& k.SHIM_IPCD_BUSY = 0 <;> simp [shim_write, hD, hb]
  · by_cases hX : addr = k.SHIM_IPCX
    · subst hX
      by_cases hb : val &&& k.SHIM_IPCX_DONE = 0 <;> simp [shim_write, hD, hb]
    · by_cases hM : addr = k.SHIM_IMRD
      · subst hM
        by_cases ha : andNot32 (region_set s.region (k.SHIM_IMRD >>> 2) val (k.SHIM_ISRD >>> 2))
            (region_set s.region (k.SHIM_IMRD >>> 2) val (k.SHIM_IMRD >>> 2)) = 0
        · right; right; left
          simp [shim_write, hD, hX, ha, adsp_set_lvl1_irq]
        · left
          simp [shim_write, hD, hX, ha]
      · by_cases hC : addr = k.SHIM_CSR
        · subst hC
          right; right; right
          simp [shim_write, hD, hX, hM]
        · left
          simp [shim_write, hD, hX, hM, hC]

/-- A mask write that leaves `active` zero: the resulting state and call. -/
theorem shim_write_imrd_zero (k : ShimConsts) (s : adsp_dev) (val size : Nat)
    (h1 : k.SHIM_IMRD ≠ k.SHIM_IPCD) (h2 : k.SHIM_IMRD ≠ k.SHIM_IPCX)
    (h : andNot32 (region_set s.region (k.SHIM_IMRD >>> 2) val (k.SHIM_ISRD >>> 2))
          (region_set s.region (k.SHIM_IMRD >>> 2) val (k.SHIM_IMRD >>> 2)) = 0) :
    shim_write k s k.SHIM_IMRD val size
      = ({ s with region := region_set s.region (k.SHIM_IMRD >>> 2) val,
                  lvl1 := fun j => if j = s.ia_irq then 0 else s.lvl1 j },
         [Event.set_lvl1_irq s.ia_irq 0]) := by
  simp [shim_write, h1, h2, h, adsp_set_lvl1_irq]

/-- C14 (the line modelled as the last level driven): when `ISRD & ~IMRD` is
nonzero, running `adsp_bdw_irq_msg` a second time right after the first leaves
the whole state, the line level (1) included, as the first run left it; and
when a mask write makes `active` zero, repeating the same mask write leaves
the whole state, the line level (0) included, as the first write left it. -/
theorem irq_line_idempotent (k : ShimConsts) (s : adsp_dev) (m m' : qemu_io_msg)
    (val size size' : Nat)
    (h1 : k.SHIM_IMRD ≠ k.SHIM_IPCD) (h2 : k.SHIM_IMRD ≠ k.SHIM_IPCX) :
    (andNot32 (s.region (k.SHIM_ISRD >>> 2)) (s.region (k.SHIM_IMRD >>> 2)) ≠ 0 →
        (adsp_bdw_irq_msg k (adsp_bdw_irq_msg k s m).1 m').1 = (adsp_bdw_irq_msg k s m).1 ∧
        (adsp_bdw_irq_msg k (adsp_bdw_irq_msg k s m).1 m').1.lvl1 s.ia_irq = 1) ∧
    (andNot32 ((shim_write k s k.SHIM_IMRD val size).1.region (k.SHIM_ISRD >>> 2))
          ((shim_write k s k.SHIM_IMRD val size).1.region (k.SHIM_IMRD >>> 2)) = 0 →
        (shim_write k (shim_write k s k.SHIM_IMRD val size).1 k.SHIM_IMRD val size').1
          = (shim_write k s k.SHIM_IMRD val size).1 ∧
        (shim_write k (shim_write k s k.SHIM_IMRD val size).1 k.SHIM_IMRD val size').1.lvl1
          s.ia_irq = 0) := by
  constructor
  · intro h
    have e1 : (adsp_bdw_irq_msg k s m).1
        = { s with lvl1 := fun j => if j = s.ia_irq then 1 else s.lvl1 j } := by
      simp [adsp_bdw_irq_msg, adsp_set_lvl1_irq, h]
    rw [e1]
    constructor
    · apply adsp_dev_eq_of_fields
      · simp [adsp_bdw_irq_msg, adsp_set_lvl1_irq, h]
      · simp [adsp_bdw_irq_msg, adsp_set_lvl1_irq, h]
      · simp [adsp_bdw_irq_msg, adsp_set_lvl1_irq, h]
      · funext j
        simp only [adsp_bdw_irq_msg, adsp_set_lvl1_irq, h, ne_eq, not_false_eq_true, if_true]
        split_ifs <;> rfl
    · simp [adsp_bdw_irq_msg, adsp_set_lvl1_irq, h]
  · have hreg : (shim_write k s k.SHIM_IMRD val size).1.region
        = region_set s.region (k.SHIM_IMRD >>> 2) val := by
      simp only [shim_write, h1, h2, if_false, if_true]
      split_ifs <;> simp [adsp_set_lvl1_irq]
    rw [hreg]
    intro h
    rw [shim_write_imrd_zero k s val size h1 h2 h]
    have h' : andNot32
        (region_set (region_set s.region (k.SHIM_IMRD >>> 2) val) (k.SHIM_IMRD >>> 2) val
          (k.SHIM_ISRD >>> 2))
        (region_set (region_set s.region (k.SHIM_IMRD >>> 2) val) (k.SHIM_IMRD >>> 2) val
          (k.SHIM_IMRD >>> 2)) = 0 := by
      rw [region_set_idem]; exact h
    rw [shim_write_imrd_zero k _ val size' h1 h2 h']
    constructor
    · apply adsp_dev_eq_of_fields
      · exact region_set_idem _ _ _
      · rfl
      · rfl
      · funext j
        show (if j = s.ia_irq then 0 else if j = s.ia_irq then 0 else s.lvl1 j)
          = if j = s.ia_irq then 0 else s.lvl1 j
        split_ifs <;> rfl
    · show (if s.ia_irq = s.ia_irq then 0 else if s.ia_irq = s.ia_irq then 0 else s.lvl1 s.ia_irq)
        = 0
      simp

/-- Witness of `irq_line_idempotent`: reevaluation on a device with a pending
unmasked status bit, and a mask write on the zero register file. -/
theorem irq_line_idempotent_witness :
    (sampleConsts.SHIM_IMRD ≠ sampleConsts.SHIM_IPCD ∧
      sampleConsts.SHIM_IMRD ≠ sampleConsts.SHIM_IPCX) ∧
    (adsp_bdw_irq_msg sampleConsts
        (adsp_bdw_irq_msg sampleConsts dev_pending ⟨2, 36, 20, 0, 0⟩).1 ⟨2, 36, 20, 0, 0⟩).1
      = (adsp_bdw_irq_msg sampleConsts dev_pending ⟨2, 36, 20, 0, 0⟩).1 ∧
    (shim_write sampleConsts (shim_write sampleConsts dev0 sampleConsts.SHIM_IMRD 5 4).1
        sampleConsts.SHIM_IMRD 5 4).1
      = (shim_write sampleConsts dev0 sampleConsts.SHIM_IMRD 5 4).1 :=
  ⟨by decide,
   ((irq_line_idempotent sampleConsts dev_pending ⟨2, 36, 20, 0, 0⟩ ⟨2, 36, 20, 0, 0⟩ 5 4 4
      (by decide) (by decide)).1 (by decide)).1,
   ((irq_line_idempotent sampleConsts dev0 ⟨2, 36, 20, 0, 0⟩ ⟨2, 36, 20, 0, 0⟩ 5 4 4
      (by decide) (by decide)).2 (by decide)).1⟩

/-- C15: every message `shim_write` sends, for every address and value, has a
header that matches its payload: an interrupt message carries type IRQ,
message IRQ, the size of the interrupt message and line 0; a register-write
message carries type REG, message REG32W and the size of the 32-bit register
message. -/
theorem shim_write_wire_format (k : ShimConsts) (s : adsp_dev) (addr val size : Nat) :
    ∀ e ∈ (shim_write k s addr val size).2,
      (∀ m, e = Event.send_irq m →
        m.hdr.type = k.QEMU_IO_TYPE_IRQ ∧ m.hdr.msg = k.QEMU_IO_MSG_IRQ ∧
        m.hdr.size = k.sizeof_irq ∧ m.irq = 0) ∧
      (∀ m, e = Event.send_reg32 m →
        m.hdr.type = k.QEMU_IO_TYPE_REG ∧ m.hdr.msg = k.QEMU_IO_MSG_REG32W ∧
        m.hdr.size = k.sizeof_reg32) := by
  intro e he
  rcases shim_write_events k s addr val size with h | h | h | h <;> rw [h] at he <;>
    simp [irq_msg] at he <;> subst he <;> constructor <;> intro m hm <;> cases hm <;> simp

/-- Witness of `shim_write_wire_format`: the interrupt message of a command
write with the busy bit set. -/
theorem shim_write_wire_format_witness :
    Event.send_irq ⟨⟨2, 36, 20⟩, 0⟩
        ∈ (shim_write sampleConsts dev0 sampleConsts.SHIM_IPCD 0x80000000 4).2 ∧
    ((⟨⟨2, 36, 20⟩, 0⟩ : qemu_io_msg_irq).hdr.type = sampleConsts.QEMU_IO_TYPE_IRQ ∧
      (⟨⟨2, 36, 20⟩, 0⟩ : qemu_io_msg_irq).hdr.msg = sampleConsts.QEMU_IO_MSG_IRQ ∧
      (⟨⟨2, 36, 20⟩, 0⟩ : qemu_io_msg_irq).hdr.size = sampleConsts.sizeof_irq ∧
      (⟨⟨2, 36, 20⟩, 0⟩ : qemu_io_msg_irq).irq = 0) :=
  ⟨by decide,
   (shim_write_wire_format sampleConsts dev0 sampleConsts.SHIM_IPCD 0x80000000 4
      (Event.send_irq ⟨⟨2, 36, 20⟩, 0⟩) (by decide)).1 ⟨⟨2, 36, 20⟩, 0⟩ rfl⟩

/-- C16 (refuted as stated): the mask write on the zero register file drives
the line low, and the trace of `shim_write` is that one call, with no acquire
before it: walked from a free lock the trace breaks the discipline. -/
theorem shim_write_imrd_takes_no_lock :
    (shim_write sampleConsts dev0 sampleConsts.SHIM_IMRD 5 4).2
      = [Event.set_lvl1_irq 4 0] ∧
    lock_trace false (shim_write sampleConsts dev0 sampleConsts.SHIM_IMRD 5 4).2 = none := by
  decide

/-- C16 (amended): the assert in `adsp_bdw_irq_msg` is made between the
function's own acquire and the matching release of the iothread mutex; the
deassert in the mask-write case of `shim_write` is made with no lock call by
`shim_write` itself: its trace holds no acquire and no release, so the call is
under the lock exactly when the caller of the bus handler already holds it
(and then the handler leaves it held). -/
theorem irq_call_lock_discipline (k : ShimConsts) (s : adsp_dev) (m : qemu_io_msg)
    (val size : Nat)
    (h1 : k.SHIM_IMRD ≠ k.SHIM_IPCD) (h2 : k.SHIM_IMRD ≠ k.SHIM_IPCX) :
    lock_trace false (adsp_bdw_irq_msg k s m).2 = some false ∧
    (∀ e ∈ (shim_write k s k.SHIM_IMRD val size).2,
        e ≠ Event.mutex_lock_iothread ∧ e ≠ Event.mutex_unlock_iothread) ∧
    lock_trace true (shim_write k s k.SHIM_IMRD val size).2 = some true ∧
    (andNot32 ((shim_write k s k.SHIM_IMRD val size).1.region (k.SHIM_ISRD >>> 2))
          ((shim_write k s k.SHIM_IMRD val size).1.region (k.SHIM_IMRD >>> 2)) = 0 →
        (shim_write k s k.SHIM_IMRD val size).2 = [Event.set_lvl1_irq s.ia_irq 0] ∧
        lock_trace false (shim_write k s k.SHIM_IMRD val size).2 = none) := by
  have hreg : (shim_write k s k.SHIM_IMRD val size).1.region
      = region_set s.region (k.SHIM_IMRD >>> 2) val := by
    simp only [shim_write, h1, h2, if_false, if_true]
    split_ifs <;> simp [adsp_set_lvl1_irq]
  refine ⟨?_, ?_, ?_, ?_⟩
  · by_cases h : andNot32 (s.region (k.SHIM_ISRD >>> 2)) (s.region (k.SHIM_IMRD >>> 2)) = 0
    · simp [adsp_bdw_irq_msg, h, lock_trace]
    · simp [adsp_bdw_irq_msg, adsp_set_lvl1_irq, h, lock_trace]
  · intro e he
    by_cases h : andNot32 (region_set s.region (k.SHIM_IMRD >>> 2) val (k.SHIM_ISRD >>> 2))
        (region_set s.region (k.SHIM_IMRD >>> 2) val (k.SHIM_IMRD >>> 2)) = 0
    · simp [shim_write, h1, h2, h, adsp_set_lvl1_irq] at he
      subst he
      simp
    · simp [shim_write, h1, h2, h] at he
  · by_cases h : andNot32 (region_set s.region (k.SHIM_IMRD >>> 2) val (k.SHIM_ISRD >>> 2))
        (region_set s.region (k.SHIM_IMRD >>> 2) val (k.SHIM_IMRD >>> 2)) = 0
    · simp [shim_write, h1, h2, h, adsp_set_lvl1_irq, lock_trace]
    · simp [shim_write, h1, h2, h, lock_trace]
  · rw [hreg]
    intro h
    simp [shim_write, h1, h2, h, adsp_set_lvl1_irq, lock_trace]

/-- Witness of `irq_call_lock_discipline`: the mask write on the zero register
file of the sample table. -/
theorem irq_call_lock_discipline_witness :
    (sampleConsts.SHIM_IMRD ≠ sampleConsts.SHIM_IPCD ∧
      sampleConsts.SHIM_IMRD ≠ sampleConsts.SHIM_IPCX) ∧
    lock_trace false (adsp_bdw_irq_msg sampleConsts dev_pending ⟨2, 36, 20, 0, 0⟩).2
      = some false ∧
    lock_trace true (shim_write sampleConsts dev0 sampleConsts.SHIM_IMRD 5 4).2 = some true :=
  ⟨by decide,
   (irq_call_lock_discipline sampleConsts dev_pending ⟨2, 36, 20, 0, 0⟩ 5 4 (by decide)
      (by decide)).1,
   (irq_call_lock_discipline sampleConsts dev0 ⟨2, 36, 20, 0, 0⟩ 5 4 (by decide)
      (by decide)).2.2.1⟩

/-- C18: the bus path never drives the reset state machine: `shim_write`, at
every address and value, and `shim_read` leave `in_reset` unchanged and issue
no core reset, resume or execution start; on the host path `in_reset` changes
only through a 32-bit or 64-bit register-write message addressed to the
control/status register (`adsp_bdw_irq_msg` never changes it). -/
theorem bus_path_keeps_in_reset (k : ShimConsts) (s : adsp_dev) (addr val size : Nat)
    (m : qemu_io_msg) :
    (shim_write k s addr val size).1.in_reset = s.in_reset ∧
    (∀ e ∈ (shim_write k s addr val size).2,
        e ≠ Event.cpu_reset ∧ e ≠ Event.cpu_resume ∧ e ≠ Event.vm_start) ∧
    (shim_read_st s addr size).1 = (s, []) ∧
    ((adsp_bdw_shim_msg k s m).1.in_reset ≠ s.in_reset →
        m.reg = k.SHIM_CSR ∧
        (m.msg = k.QEMU_IO_MSG_REG32W ∨ m.msg = k.QEMU_IO_MSG_REG64W)) ∧
    (adsp_bdw_irq_msg k s m).1.in_reset = s.in_reset := by
  refine ⟨?_, ?_, rfl, ?_, ?_⟩
  · unfold shim_write
    split_ifs <;> simp [adsp_set_lvl1_irq]
    split_ifs <;> rfl
  · intro e he
    rcases shim_write_events k s addr val size with h | h | h | h <;> rw [h] at he <;>
      simp at he <;> subst he <;> simp
  · intro hch
    by_cases hreg : m.reg = k.SHIM_CSR
    · refine ⟨hreg, ?_⟩
      by_contra hk
      push_neg at hk
      apply hch
      unfold adsp_bdw_shim_msg
      simp only [hk.1, hk.2, if_false]
      split_ifs <;> rfl
    · exfalso
      apply hch
      unfold adsp_bdw_shim_msg
      split_ifs <;> simp [do_shim32, do_shim64, hreg]
  · unfold adsp_bdw_irq_msg
    simp only [adsp_set_lvl1_irq]
    split_ifs <;> rfl

/-- Witness of `bus_path_keeps_in_reset`: a bus write to the control/status
register with the reset bit set leaves `in_reset` false, while the host
message with the same value changes it. -/
theorem bus_path_keeps_in_reset_witness :
    (shim_write sampleConsts dev0 sampleConsts.SHIM_CSR 2 4).1.in_reset = dev0.in_reset ∧
    (adsp_bdw_shim_msg sampleConsts dev0 ⟨1, 32, 24, 0, 2⟩).1.in_reset ≠ dev0.in_reset ∧
    (⟨1, 32, 24, 0, 2⟩ : qemu_io_msg).reg = sampleConsts.SHIM_CSR :=
  ⟨(bus_path_keeps_in_reset sampleConsts dev0 sampleConsts.SHIM_CSR 2 4 ⟨1, 32, 24, 0, 2⟩).1,
   by decide,
   ((bus_path_keeps_in_reset sampleConsts dev0 sampleConsts.SHIM_CSR 2 4
      ⟨1, 32, 24, 0, 2⟩).2.2.2.1 (by decide)).1⟩

/-- C19: the host message path never mutates the register file: after
`adsp_bdw_shim_msg` on any message (register write of either width to any
address, register read, unknown kind) and after `adsp_bdw_irq_msg` the
register file is the one before; the value of a host control/status write is
not stored, so `shim_read` of `SHIM_CSR` returns what it returned before. -/
theorem host_path_keeps_region (k : ShimConsts) (s : adsp_dev) (m : qemu_io_msg)
    (size : Nat) :
    (adsp_bdw_shim_msg k s m).1.region = s.region ∧
    (adsp_bdw_irq_msg k s m).1.region = s.region ∧
    shim_read (adsp_bdw_shim_msg k s m).1 k.SHIM_CSR size = shim_read s k.SHIM_CSR size := by
  have h1 : (adsp_bdw_shim_msg k s m).1.region = s.region := by
    unfold adsp_bdw_shim_msg do_shim32 do_shim64
    split_ifs <;> rfl
  refine ⟨h1, ?_, ?_⟩
  · unfold adsp_bdw_irq_msg
    simp only [adsp_set_lvl1_irq]
    split_ifs <;> rfl
  · simp only [shim_read, h1]

/-- Mirroring touches no bit of the ISRX word outside the busy and done masks. -/
theorem mirror_isrx_other_bits (k : ShimConsts) (old val busy done : Nat) :
    andNot32 (mirror_isrx k old val busy done) (k.SHIM_ISRX_DONE ||| k.SHIM_ISRX_BUSY)
      = andNot32 old (k.SHIM_ISRX_DONE ||| k.SHIM_ISRX_BUSY) := by
  apply Nat.eq_of_testBit_eq
  intro i
  simp only [mirror_isrx, testBit_andNot32, Nat.testBit_lor, Nat.testBit_mod_two_pow]
  by_cases hi : i < 32 <;> by_cases hd : k.SHIM_ISRX_DONE.testBit i = true <;>
    by_cases hb : k.SHIM_ISRX_BUSY.testBit i = true <;> split_ifs <;> simp [hi, hd, hb]

/-- Two distinct word-aligned offsets name two distinct words. -/
theorem word_ne_of_aligned {a b : Nat} (ha : a % 4 = 0) (hb : b % 4 = 0) (h : a ≠ b) :
    a >>> 2 ≠ b >>> 2 := by
  rw [shiftRight_two, shiftRight_two]
  omega

/-- The state a command or notify write leaves, with the words of the written
register and of ISRX distinct. -/
theorem shim_write_ipc_region (k : ShimConsts) (s : adsp_dev) (addr val size : Nat)
    (haddr : addr = k.SHIM_IPCD ∨ addr = k.SHIM_IPCX)
    (hw : addr >>> 2 ≠ k.SHIM_ISRX >>> 2) :
    ∃ busy done,
      (shim_write k s addr val size).1
        = { s with region :=
              (region_set (region_set s.region (addr >>> 2) val) (k.SHIM_ISRX >>> 2)
                (mirror_isrx k (s.region (k.SHIM_ISRX >>> 2)) val busy done)) } := by
  have hold : region_set s.region (addr >>> 2) val (k.SHIM_ISRX >>> 2)
      = s.region (k.SHIM_ISRX >>> 2) := region_set_other _ _ _ _ (Ne.symm hw)
  by_cases hD : addr = k.SHIM_IPCD
  · refine ⟨k.SHIM_IPCD_BUSY, k.SHIM_IPCD_DONE, ?_⟩
    rw [← hold]
    simp [shim_write, hD]
  · have hX : addr = k.SHIM_IPCX := haddr.resolve_left hD
    refine ⟨k.SHIM_IPCX_BUSY, k.SHIM_IPCX_DONE, ?_⟩
    rw [← hold]
    simp only [shim_write, hD, if_false]
    simp [hX]

/-- C17: with the offsets IPCD, IPCX, ISRX, ISRD, IMRD pairwise distinct (and
word-aligned, so that distinct offsets are distinct words), a write to
`SHIM_IPCD` or `SHIM_IPCX` changes only the word of the written register and
the busy and done bits of ISRX: every other bit of ISRX and every other word
keep their value, in particular ISRD and IMRD and hence `active`; `in_reset`
and the interrupt line are unchanged and no interrupt-line call is made. -/
theorem shim_write_ipc_frame (k : ShimConsts) (s : adsp_dev) (addr val size : Nat)
    (hal : k.SHIM_IPCD % 4 = 0 ∧ k.SHIM_IPCX % 4 = 0 ∧ k.SHIM_ISRX % 4 = 0 ∧
      k.SHIM_ISRD % 4 = 0 ∧ k.SHIM_IMRD % 4 = 0)
    (hne : List.Pairwise (fun a b => a ≠ b)
      [k.SHIM_IPCD, k.SHIM_IPCX, k.SHIM_ISRX, k.SHIM_ISRD, k.SHIM_IMRD])
    (haddr : addr = k.SHIM_IPCD ∨ addr = k.SHIM_IPCX) :
    (shim_write k s addr val size).1.region (addr >>> 2) = val % 2 ^ 32 ∧
    (∀ j, j ≠ addr >>> 2 → j ≠ k.SHIM_ISRX >>> 2 →
        (shim_write k s addr val size).1.region j = s.region j) ∧
    andNot32 ((shim_write k s addr val size).1.region (k.SHIM_ISRX >>> 2))
        (k.SHIM_ISRX_DONE ||| k.SHIM_ISRX_BUSY)
      = andNot32 (s.region (k.SHIM_ISRX >>> 2)) (k.SHIM_ISRX_DONE ||| k.SHIM_ISRX_BUSY) ∧
    (shim_write k s addr val size).1.region (k.SHIM_ISRD >>> 2) = s.region (k.SHIM_ISRD >>> 2) ∧
    (shim_write k s addr val size).1.region (k.SHIM_IMRD >>> 2) = s.region (k.SHIM_IMRD >>> 2) ∧
    andNot32 ((shim_write k s addr val size).1.region (k.SHIM_ISRD >>> 2))
        ((shim_write k s addr val size).1.region (k.SHIM_IMRD >>> 2))
      = andNot32 (s.region (k.SHIM_ISRD >>> 2)) (s.region (k.SHIM_IMRD >>> 2)) ∧
    (shim_write k s addr val size).1.in_reset = s.in_reset ∧
    (shim_write k s addr val size).1.lvl1 = s.lvl1 ∧
    (∀ e ∈ (shim_write k s addr val size).2, ∀ irq level, e ≠ Event.set_lvl1_irq irq level) := by
  obtain ⟨aD, aX, aS, aR, aM⟩ := hal
  simp only [List.pairwise_cons, List.mem_cons, List.mem_singleton, List.not_mem_nil,
    forall_eq_or_imp, forall_eq, List.Pairwise.nil, and_true, IsEmpty.forall_iff,
    implies_true] at hne
  obtain ⟨⟨nDX, nDS, nDR, nDM⟩, ⟨nXS, nXR, nXM⟩, ⟨nSR, nSM⟩, _⟩ := hne
  have hwS : addr >>> 2 ≠ k.SHIM_ISRX >>> 2 := by
    rcases haddr with h | h <;> rw [h]
    · exact word_ne_of_aligned aD aS nDS
    · exact word_ne_of_aligned aX aS nXS
  have hwR : k.SHIM_ISRD >>> 2 ≠ addr >>> 2 := by
    rcases haddr with h | h <;> rw [h]
    · exact word_ne_of_aligned aR aD (Ne.symm nDR)
    · exact word_ne_of_aligned aR aX (Ne.symm nXR)
  have hwM : k.SHIM_IMRD >>> 2 ≠ addr >>> 2 := by
    rcases haddr with h | h <;> rw [h]
    · exact word_ne_of_aligned aM aD (Ne.symm nDM)
    · exact word_ne_of_aligned aM aX (Ne.symm nXM)
  have hRS : k.SHIM_ISRD >>> 2 ≠ k.SHIM_ISRX >>> 2 := by
    exact word_ne_of_aligned aR aS (Ne.symm nSR)
  have hMS : k.SHIM_IMRD >>> 2 ≠ k.SHIM_ISRX >>> 2 := by
    exact word_ne_of_aligned aM aS (Ne.symm nSM)
  obtain ⟨busy, done, hst⟩ := shim_write_ipc_region k s addr val size haddr hwS
  have hother : ∀ j, j ≠ addr >>> 2 → j ≠ k.SHIM_ISRX >>> 2 →
      (shim_write k s addr val size).1.region j = s.region j := by
    intro j h1 h2
    rw [hst]
    simp [region_set, h1, h2]
  have hR := hother _ hwR hRS
  have hM := hother _ hwM hMS
  refine ⟨?_, hother, ?_, hR, hM, ?_, ?_, ?_, ?_⟩
  · rw [hst]
    simp [region_set, hwS]
  · rw [hst]
    show andNot32 (region_set _ _ _ (k.SHIM_ISRX >>> 2)) _ = _
    rw [region_set_same, Nat.mod_eq_of_lt (mirror_isrx_lt _ _ _ _ _), mirror_isrx_other_bits]
  · rw [hR, hM]
  · rw [hst]
  · rw [hst]
  · intro e he irq level
    rcases haddr with h | h
    · by_cases hb : val &&& k.SHIM_IPCD_BUSY = 0 <;>
        simp [shim_write, h, hb] at he
      subst he
      simp
    · by_cases hb : val &&& k.SHIM_IPCX_DONE = 0 <;>
        simp [shim_write, h, hb, Ne.symm nDX] at he
      subst he
      simp

/-- Witness of `shim_write_ipc_frame`: a command write with the busy bit set on
a device with a pending status bit; the ISRD word keeps its value. -/
theorem shim_write_ipc_frame_witness :
    ((sampleConsts.SHIM_IPCD % 4 = 0 ∧ sampleConsts.SHIM_IPCX % 4 = 0 ∧
        sampleConsts.SHIM_ISRX % 4 = 0 ∧ sampleConsts.SHIM_ISRD % 4 = 0 ∧
        sampleConsts.SHIM_IMRD % 4 = 0) ∧
      List.Pairwise (fun a b => a ≠ b)
        [sampleConsts.SHIM_IPCD, sampleConsts.SHIM_IPCX, sampleConsts.SHIM_ISRX,
         sampleConsts.SHIM_ISRD, sampleConsts.SHIM_IMRD]) ∧
    (shim_write sampleConsts dev_pending 0x40 0x80000000 4).1.region
        (sampleConsts.SHIM_ISRD >>> 2)
      = dev_pending.region (sampleConsts.SHIM_ISRD >>> 2) :=
  ⟨by decide,
   (shim_write_ipc_frame sampleConsts dev_pending 0x40 0x80000000 4 (by decide) (by decide)
      (Or.inl (by decide))).2.2.2.1⟩

end HswShim
